import Mathlib

/-!
Verification development for the memory-forensics core: a shallow embedding of
the pattern-scanning engine (`memory_scanner.cpp`), the heuristic big-integer
structure reconstruction (`dotnet_biginteger_reader.cpp`) and the
shuffle-cipher decryption engine (`obscured_biginteger_reader.cpp`), together
with theorems settling the specification's claims about them.

Modelling conventions:
* machine integers are `Nat` holding the unsigned bit pattern of the C++ value
  (an `int32_t` is represented by its 32-bit pattern, so `-1` is `0xFFFFFFFF`);
  bitwise XOR on patterns coincides with the C++ `^` on the same width;
* `std::optional` becomes `Option`; an early `return std::nullopt` becomes a
  `none` branch of a `match`;
* the `MemoryScanner` word-level read primitives the readers call are modelled
  as an abstract record of functions from addresses to optional values
  (deterministic, side-effect free, exactly as the core treats them);
* `std::vector` becomes `List`.
-/

namespace MemoryForensics

/-- Memory addresses: address-sized unsigned integers (`MemoryAddress` in
`common.hpp`). -/
abbrev MemoryAddress := Nat

/-- Mirror of `struct BigIntegerContents` (obscured_biginteger_reader.hpp):
sign pattern, magnitude-array pointer, derived length, and the limb data read
from memory. -/
structure BigIntegerContents where
  sign : Nat := 0
  bits_ptr : Nat := 0
  bits_length : Nat := 0
  bits_data : List Nat := []
  deriving Repr, DecidableEq

instance : Inhabited BigIntegerContents := ⟨{}⟩

/-- Mirror of `struct DotNetBigIntegerData` (dotnet_biginteger_reader.hpp). -/
structure DotNetBigIntegerData where
  sign : Nat := 0
  bits_ptr : Nat := 0
  bits_length : Nat := 0
  bits_data : List Nat := []
  is_valid : Bool := false
  deriving Repr, DecidableEq

instance : Inhabited DotNetBigIntegerData := ⟨{}⟩

/-- Mirror of `struct SerializableBigInteger` (obscured_biginteger_reader.hpp):
the dual-view record holding both interpretations of one overlaid byte span. -/
structure SerializableBigInteger where
  bigint_value : DotNetBigIntegerData := {}
  raw_contents : BigIntegerContents := {}
  is_valid : Bool := false
  deriving Repr, DecidableEq

instance : Inhabited SerializableBigInteger := ⟨{}⟩

/-- Mirror of `struct ObscuredBigIntegerData` (obscured_biginteger_reader.hpp). -/
structure ObscuredBigIntegerData where
  hidden_value : SerializableBigInteger := {}
  fake_value : SerializableBigInteger := {}
  current_crypto_key : Nat := 0
  fake_value_active : Bool := false
  inited : Bool := false
  is_valid : Bool := false
  deriving Repr, DecidableEq

instance : Inhabited ObscuredBigIntegerData := ⟨{}⟩

/-- Embedding of `ObscuredBigIntegerReader::DecryptBigIntegerContents`
(obscured_biginteger_reader.cpp lines 334-360): the SymmetricShuffle
decryption.  XOR the sign with the key; an empty limb vector is untouched; a
single limb is XORed with the key in place; with more than one limb the first
and last limbs are swapped, each XORed with the key, interior limbs
unchanged. -/
def ObscuredBigIntegerReader.DecryptBigIntegerContents
    (encrypted : BigIntegerContents) (key : Nat) : BigIntegerContents :=
  let sign' := encrypted.sign ^^^ key
  let bits :=
    if encrypted.bits_data.isEmpty then
      encrypted.bits_data
    else
      let count := encrypted.bits_data.length
      if count = 1 then
        encrypted.bits_data.set 0 (encrypted.bits_data.getD 0 0 ^^^ key)
      else
        let first := encrypted.bits_data.getD 0 0
        let last := encrypted.bits_data.getD (count - 1) 0
        (encrypted.bits_data.set 0 (last ^^^ key)).set (count - 1) (first ^^^ key)
  { encrypted with sign := sign', bits_data := bits }

/-- Embedding of `ObscuredBigIntegerReader::DecryptSerializableBigInteger`
(obscured_biginteger_reader.cpp lines 320-332): decrypts only the
`raw_contents` view; the code keeps the original `bigint_value` (its own
comment records that the BigInteger reconstruction is not performed). -/
def ObscuredBigIntegerReader.DecryptSerializableBigInteger
    (encrypted : SerializableBigInteger) (key : Nat) : SerializableBigInteger :=
  { encrypted with
    raw_contents :=
      ObscuredBigIntegerReader.DecryptBigIntegerContents encrypted.raw_contents key }

/-- Embedding of `ObscuredBigIntegerReader::DecryptHiddenValue`
(obscured_biginteger_reader.cpp lines 170-181): fails on an invalid record,
otherwise decrypts the hidden `SerializableBigInteger` with the record's key
and returns that result's `bigint_value` field. -/
def ObscuredBigIntegerReader.DecryptHiddenValue
    (obscured : ObscuredBigIntegerData) : Option DotNetBigIntegerData :=
  if !obscured.is_valid then
    none
  else
    some (ObscuredBigIntegerReader.DecryptSerializableBigInteger
            obscured.hidden_value obscured.current_crypto_key).bigint_value

/-- Setting the final position of a non-empty list replaces its last element. -/
theorem list_set_concat {α : Type} (m : List α) (y v : α) :
    (m ++ [y]).set m.length v = m ++ [v] := by
  induction m with
  | nil => rfl
  | cons a t ih => simp [List.set, ih]

/-- Reading the final position of a non-empty list yields its last element. -/
theorem list_getD_concat {α : Type} (m : List α) (y d : α) :
    (m ++ [y]).getD m.length d = y := by
  induction m with
  | nil => rfl
  | cons a t ih => simp [ih]

/-- Decryption of a tuple with at least two limbs, in closed form: the first
limb becomes the last XOR key, the last becomes the first XOR key, interior
limbs survive unchanged, and the sign is XORed with the key. -/
theorem DecryptBigIntegerContents_concat (s p n key x y : Nat) (m : List Nat) :
    ObscuredBigIntegerReader.DecryptBigIntegerContents
        ⟨s, p, n, x :: (m ++ [y])⟩ key
      = ⟨s ^^^ key, p, n, (y ^^^ key) :: (m ++ [x ^^^ key])⟩ := by
  have hlen : (x :: (m ++ [y])).length = m.length + 2 := by simp
  have hne : ¬ (m.length + 2 = 1) := by omega
  have hsub : m.length + 2 - 1 = m.length + 1 := rfl
  have hget : (x :: (m ++ [y])).getD (m.length + 1) 0 = y := by
    simp [list_getD_concat]
  simp [ObscuredBigIntegerReader.DecryptBigIntegerContents, hlen, hne, hsub, hget,
    List.set, list_set_concat]

/-- C1: the shuffle-cipher decryption is an involution — for every raw field
tuple (any sign pattern, any limb sequence) and every key, decrypting twice
with the same key restores the original tuple. -/
theorem DecryptBigIntegerContents_involution (t : BigIntegerContents) (key : Nat) :
    ObscuredBigIntegerReader.DecryptBigIntegerContents
      (ObscuredBigIntegerReader.DecryptBigIntegerContents t key) key = t := by
  obtain ⟨s, p, n, l⟩ := t
  rcases l.eq_nil_or_concat with hl | ⟨l2, y, hl⟩
  · subst hl
    simp [ObscuredBigIntegerReader.DecryptBigIntegerContents,
      Nat.xor_assoc, Nat.xor_self, Nat.xor_zero]
  · subst hl
    rw [List.concat_eq_append]
    cases l2 with
    | nil =>
      simp [ObscuredBigIntegerReader.DecryptBigIntegerContents,
        Nat.xor_assoc, Nat.xor_self, Nat.xor_zero, List.set]
    | cons x m =>
      rw [List.cons_append, DecryptBigIntegerContents_concat,
        DecryptBigIntegerContents_concat]
      simp [Nat.xor_assoc, Nat.xor_self, Nat.xor_zero]

/-- C3: full case analysis of the shuffle-cipher decryption: the sign is
XORed with the key; empty limbs are unchanged; a single limb is XORed with the
key; with more than one limb the first output limb is the last input limb XOR
key, the last output limb is the first input limb XOR key, interior limbs are
unchanged; and limbs [1,2,3] with key 0xFF decrypt to [0xFC, 0x02, 0xFE]. -/
theorem DecryptBigIntegerContents_case_analysis (t : BigIntegerContents) (key : Nat) :
    (ObscuredBigIntegerReader.DecryptBigIntegerContents t key).sign = t.sign ^^^ key
    ∧ (∀ s p n, (ObscuredBigIntegerReader.DecryptBigIntegerContents
          ⟨s, p, n, []⟩ key).bits_data = [])
    ∧ (∀ s p n x, (ObscuredBigIntegerReader.DecryptBigIntegerContents
          ⟨s, p, n, [x]⟩ key).bits_data = [x ^^^ key])
    ∧ (∀ s p n x y (m : List Nat), (ObscuredBigIntegerReader.DecryptBigIntegerContents
          ⟨s, p, n, x :: (m ++ [y])⟩ key).bits_data = (y ^^^ key) :: (m ++ [x ^^^ key]))
    ∧ (ObscuredBigIntegerReader.DecryptBigIntegerContents
          ⟨0, 0, 0, [1, 2, 3]⟩ 0xFF).bits_data = [0xFC, 0x02, 0xFE] := by
  refine ⟨?_, ?_, ?_, ?_, by decide⟩
  · simp [ObscuredBigIntegerReader.DecryptBigIntegerContents]
  · intro s p n
    simp [ObscuredBigIntegerReader.DecryptBigIntegerContents]
  · intro s p n x
    simp [ObscuredBigIntegerReader.DecryptBigIntegerContents, List.set]
  · intro s p n x y m
    rw [DecryptBigIntegerContents_concat]

/-- Concrete obscured record exhibiting the C2 divergence: a fully valid
record whose hidden raw tuple has sign pattern 1 and limb 7, with key 4, so
the decrypted sign pattern is 5 — not a legal sign. -/
def c2Record : ObscuredBigIntegerData where
  hidden_value :=
    { bigint_value :=
        { sign := 1, bits_ptr := 0x20000, bits_length := 1
          bits_data := [7], is_valid := true }
      raw_contents :=
        { sign := 1, bits_ptr := 0x20000, bits_length := 1, bits_data := [7] }
      is_valid := true }
  fake_value := {}
  current_crypto_key := 4
  fake_value_active := false
  inited := true
  is_valid := true

/-- C2 (code bug): `DecryptHiddenValue` performs no re-validation and does not
return the decrypted tuple.  On `c2Record` the decrypted hidden tuple has sign
pattern 5 (outside the -1/0/1 range, so the spec demands failure) and limbs
[3], yet the function succeeds and returns the record's stored, still
pre-decryption `bigint_value` (sign 1, limbs [7]) unchanged. -/
theorem DecryptHiddenValue_no_revalidation :
    ObscuredBigIntegerReader.DecryptHiddenValue c2Record
      = some { sign := 1, bits_ptr := 0x20000, bits_length := 1
               bits_data := [7], is_valid := true }
    ∧ (ObscuredBigIntegerReader.DecryptBigIntegerContents
         c2Record.hidden_value.raw_contents c2Record.current_crypto_key).sign = 5
    ∧ (ObscuredBigIntegerReader.DecryptBigIntegerContents
         c2Record.hidden_value.raw_contents c2Record.current_crypto_key).bits_data
        = [3] := by
  decide

/-- Upper bound on a plausible limb count
(`MAX_REASONABLE_BITS_LENGTH` in both reader headers). -/
def MAX_REASONABLE_BITS_LENGTH : Nat := 10000

/-- Lower bound of the plausible user-space pointer range
(`MIN_VALID_POINTER` in both reader headers). -/
def MIN_VALID_POINTER : Nat := 0x10000

/-- Upper bound of the plausible user-space pointer range
(`MAX_VALID_POINTER` in both reader headers). -/
def MAX_VALID_POINTER : Nat := 0x7FFFFFFFFFFF

/-- Embedding of `IsValidPointer` (identical in `DotNetBigIntegerReader` and
`ObscuredBigIntegerReader`): the address must lie in the configured range.
Note that the null pointer 0 is below `MIN_VALID_POINTER` and therefore
rejected. -/
def IsValidPointer (address : MemoryAddress) : Bool :=
  decide (MIN_VALID_POINTER ≤ address ∧ address ≤ MAX_VALID_POINTER)

/-- Embedding of `DotNetBigIntegerReader::IsValidBitsLength`. -/
def IsValidBitsLength (length : Nat) : Bool :=
  decide (length ≤ MAX_REASONABLE_BITS_LENGTH)

/-- Word-level read primitives of `MemoryScanner` (memory_scanner.cpp lines
11-25), modelled as an abstract record of deterministic partial functions:
each read either yields the value stored at the address or fails.  Integer
results are the unsigned bit patterns of the C++ values. -/
structure MemoryScanner where
  readInt32 : MemoryAddress → Option Nat
  readUInt32 : MemoryAddress → Option Nat
  readUInt64 : MemoryAddress → Option Nat
  readBool : MemoryAddress → Option Bool

/-- Embedding of `MemoryScanner::ReadUInt32Array` (memory_scanner.cpp lines
27-44): the C++ loop reads element `i` at `address + i * 4` for
`i = 0 .. count - 1`, in order, aborting the whole read at the first failing
element, with `count = 0` yielding the empty vector.  Modelled by peeling the
first iteration: the same words are read at the same addresses in the same
order with the same abort behaviour. -/
def MemoryScanner.ReadUInt32Array : MemoryScanner → MemoryAddress → Nat → Option (List Nat)
  | _, _, 0 => some []
  | scanner, address, n + 1 =>
    match scanner.readUInt32 address with
    | none => none
    | some v =>
      match scanner.ReadUInt32Array (address + 4) n with
      | none => none
      | some rest => some (v :: rest)

/-- Embedding of the probe-window backward scan shared by
`DotNetBigIntegerReader::ReadBigInteger` (dotnet_biginteger_reader.cpp lines
62-69) and `ObscuredBigIntegerReader::ReadBigIntegerContents`
(obscured_biginteger_reader.cpp lines 285-292): the C++ walks the probe array
from its end toward index 0 and stops at the first non-zero limb, returning
that index + 1, or 0 when every limb is zero.  This structural recursion
computes the same number: the length of the list after trimming trailing
zeros. -/
def findActualLength : List Nat → Nat
  | [] => 0
  | x :: xs =>
    let r := findActualLength xs
    if r = 0 then (if x ≠ 0 then 1 else 0) else r + 1

/-- Embedding of `DotNetBigIntegerReader::ReadBigInteger`
(dotnet_biginteger_reader.cpp lines 12-94): validate the base address, read
the sign word and the magnitude pointer, validate the pointer range (a null
pointer fails this check), probe 32 limbs to recover the length, clamp an
all-zero probe to length 1 when the sign is non-zero, reject implausible
lengths, then re-read exactly that many limbs.  The C++ null-scanner guard is
outside the model (the scanner is a value here). -/
def DotNetBigIntegerReader.ReadBigInteger (scanner : MemoryScanner)
    (base_address : MemoryAddress) : Option DotNetBigIntegerData :=
  if !IsValidPointer base_address then none
  else
    match scanner.readInt32 base_address with
    | none => none
    | some sign =>
      match scanner.readUInt64 (base_address + 4) with
      | none => none
      | some bits_ptr =>
        if !IsValidPointer bits_ptr then none
        else
          match scanner.ReadUInt32Array bits_ptr 32 with
          | none => none
          | some probe_array =>
            let probed := findActualLength probe_array
            let actual_length := if probed = 0 ∧ sign ≠ 0 then 1 else probed
            if !IsValidBitsLength actual_length then none
            else
              if actual_length > 0 then
                match scanner.ReadUInt32Array bits_ptr actual_length with
                | none => none
                | some bits_data =>
                  some { sign, bits_ptr, bits_length := actual_length,
                         bits_data, is_valid := true }
              else
                some { sign, bits_ptr, bits_length := actual_length,
                       bits_data := [], is_valid := true }

/-- Embedding of `DotNetBigIntegerReader::ReadBigIntegerVerbose`
(dotnet_biginteger_reader.cpp lines 96-208): the source duplicates the exact
reads and validations of `ReadBigInteger`, differing only in logging, so the
model is the same function. -/
def DotNetBigIntegerReader.ReadBigIntegerVerbose :
    MemoryScanner → MemoryAddress → Option DotNetBigIntegerData :=
  DotNetBigIntegerReader.ReadBigInteger

/-- Embedding of `ObscuredBigIntegerReader::ReadBigIntegerContents`
(obscured_biginteger_reader.cpp lines 235-318), the raw-tuple view: like
`ReadBigInteger` but a null magnitude pointer short-circuits to a
zero-length result, and there is no maximum-length rejection and no base
address validation. -/
def ObscuredBigIntegerReader.ReadBigIntegerContents (scanner : MemoryScanner)
    (address : MemoryAddress) : Option BigIntegerContents :=
  match scanner.readInt32 address with
  | none => none
  | some sign =>
    match scanner.readUInt64 (address + 4) with
    | none => none
    | some bits_ptr =>
      if bits_ptr = 0 then
        some { sign, bits_ptr, bits_length := 0, bits_data := [] }
      else if !IsValidPointer bits_ptr then none
      else
        match scanner.ReadUInt32Array bits_ptr 32 with
        | none => none
        | some probe_array =>
          let probed := findActualLength probe_array
          let actual_length := if probed = 0 ∧ sign ≠ 0 then 1 else probed
          if actual_length > 0 then
            match scanner.ReadUInt32Array bits_ptr actual_length with
            | none => none
            | some bits_data =>
              some { sign, bits_ptr, bits_length := actual_length, bits_data }
          else
            some { sign, bits_ptr, bits_length := actual_length, bits_data := [] }

/-- Embedding of `ObscuredBigIntegerReader::ReadSerializableBigInteger`
(obscured_biginteger_reader.cpp lines 204-233), the dual-view reader: the
validated view is attempted first and its failure only leaves the default
(invalid) `bigint_value`; the raw view is then attempted and its failure
fails the whole read. -/
def ObscuredBigIntegerReader.ReadSerializableBigInteger (scanner : MemoryScanner)
    (address : MemoryAddress) : Option SerializableBigInteger :=
  let bigint_value :=
    match DotNetBigIntegerReader.ReadBigIntegerVerbose scanner address with
    | some d => d
    | none => {}
  match ObscuredBigIntegerReader.ReadBigIntegerContents scanner address with
  | none => none
  | some raw_contents =>
    some { bigint_value, raw_contents, is_valid := true }

/-- Embedding of `ObscuredBigIntegerReader::ReadObscuredBigInteger`
(obscured_biginteger_reader.cpp lines 10-68): validate the base address, then
read the five fields strictly in order — hidden overlay value, decoy overlay
value, 32-bit key, decoy-active flag, initialized flag — each at the offset
reached by advancing the running cursor; any failure aborts the whole record.
`sz` stands for the host-ABI-dependent `sizeof(SerializableBigInteger)`
stride used at lines 30 and 38. -/
def ObscuredBigIntegerReader.ReadObscuredBigInteger (scanner : MemoryScanner)
    (sz : Nat) (base_address : MemoryAddress) : Option ObscuredBigIntegerData :=
  if !IsValidPointer base_address then none
  else
    match ObscuredBigIntegerReader.ReadSerializableBigInteger scanner base_address with
    | none => none
    | some hidden_value =>
      match ObscuredBigIntegerReader.ReadSerializableBigInteger scanner
          (base_address + sz) with
      | none => none
      | some fake_value =>
        match scanner.readUInt32 (base_address + sz + sz) with
        | none => none
        | some current_crypto_key =>
          match scanner.readBool (base_address + sz + sz + 4) with
          | none => none
          | some fake_value_active =>
            match scanner.readBool (base_address + sz + sz + 4 + 1) with
            | none => none
            | some inited =>
              some { hidden_value, fake_value, current_crypto_key,
                     fake_value_active, inited, is_valid := true }

/-- Concrete scanner for settling C4: at base 0x20000 the sign word reads as 0
and the magnitude pointer reads as null. -/
def c4Scanner : MemoryScanner where
  readInt32 := fun a => if a = 0x20000 then some 0 else none
  readUInt32 := fun _ => none
  readUInt64 := fun a => if a = 0x20004 then some 0 else none
  readBool := fun _ => none

/-- C4 counterexample: with sign word 0 and a null magnitude pointer,
`ReadBigInteger` does not short-circuit to a successful zero result — it
returns failure, because the null pointer fails the `IsValidPointer` range
check. -/
theorem ReadBigInteger_null_pointer_counterexample :
    DotNetBigIntegerReader.ReadBigInteger c4Scanner 0x20000 = none := by
  rfl

/-- C4 amended: for every base address where the sign word reads as 0 and the
magnitude pointer reads as null, `ReadBigInteger` returns failure (null fails
the pointer range validation); the null short-circuit to a zero-sign,
empty-limb success lives in the raw-view `ReadBigIntegerContents` instead. -/
theorem ReadBigInteger_null_pointer_fails (scanner : MemoryScanner)
    (base : MemoryAddress)
    (hsign : scanner.readInt32 base = some 0)
    (hptr : scanner.readUInt64 (base + 4) = some 0) :
    DotNetBigIntegerReader.ReadBigInteger scanner base = none
    ∧ ObscuredBigIntegerReader.ReadBigIntegerContents scanner base
        = some { sign := 0, bits_ptr := 0, bits_length := 0, bits_data := [] } := by
  constructor
  · simp [DotNetBigIntegerReader.ReadBigInteger, hsign, hptr, IsValidPointer,
      MIN_VALID_POINTER, MAX_VALID_POINTER]
  · simp [ObscuredBigIntegerReader.ReadBigIntegerContents, hsign, hptr]

/-- Witness for the amended C4 theorem at the concrete scanner. -/
theorem ReadBigInteger_null_pointer_fails_witness :
    DotNetBigIntegerReader.ReadBigInteger c4Scanner 0x20000 = none
    ∧ ObscuredBigIntegerReader.ReadBigIntegerContents c4Scanner 0x20000
        = some { sign := 0, bits_ptr := 0, bits_length := 0, bits_data := [] } :=
  ReadBigInteger_null_pointer_fails c4Scanner 0x20000 (by rfl) (by rfl)

/-- An all-zero probe window recovers length 0. -/
theorem findActualLength_eq_zero (l : List Nat) (h : ∀ x ∈ l, x = 0) :
    findActualLength l = 0 := by
  induction l with
  | nil => rfl
  | cons a t ih =>
    have ha : a = 0 := h a (by simp)
    have ht : findActualLength t = 0 := ih (fun x hx => h x (by simp [hx]))
    simp [findActualLength, ht, ha]

/-- A successful read of `n + 1` words yields the word at the start address as
its head, and a one-word read at the same address then also succeeds. -/
theorem ReadUInt32Array_head (scanner : MemoryScanner) (a : MemoryAddress)
    (n : Nat) (l : List Nat) (h : scanner.ReadUInt32Array a (n + 1) = some l) :
    ∃ v t, scanner.readUInt32 a = some v ∧ l = v :: t
      ∧ scanner.ReadUInt32Array a 1 = some [v] := by
  rw [MemoryScanner.ReadUInt32Array] at h
  cases hv : scanner.readUInt32 a with
  | none => simp [hv] at h
  | some v =>
    rw [hv] at h
    cases hr : scanner.ReadUInt32Array (a + 4) n with
    | none => simp [hr] at h
    | some r =>
      rw [hr] at h
      simp only [Option.some.injEq] at h
      exact ⟨v, r, rfl, h.symm, by
        simp [MemoryScanner.ReadUInt32Array, hv]⟩

/-- C7: heuristic length recovery clamps to one — whenever the sign word is
non-zero, the magnitude pointer is valid and every limb of the 32-limb probe
window reads as zero, both the validated reconstructor and the raw-view
reader recover limb count 1 (not 0) and return exactly one limb. -/
theorem length_clamp (scanner : MemoryScanner) (base ptr sign : Nat)
    (probe : List Nat)
    (hbase : IsValidPointer base = true)
    (hsign : scanner.readInt32 base = some sign) (hs0 : sign ≠ 0)
    (hptr : scanner.readUInt64 (base + 4) = some ptr)
    (hvp : IsValidPointer ptr = true)
    (hprobe : scanner.ReadUInt32Array ptr 32 = some probe)
    (hzero : ∀ x ∈ probe, x = 0) :
    (∃ r, DotNetBigIntegerReader.ReadBigInteger scanner base = some r
       ∧ r.bits_length = 1 ∧ r.bits_data.length = 1)
    ∧ (∃ c, ObscuredBigIntegerReader.ReadBigIntegerContents scanner base = some c
       ∧ c.bits_length = 1 ∧ c.bits_data.length = 1) := by
  have hfl : findActualLength probe = 0 := findActualLength_eq_zero probe hzero
  obtain ⟨v, t, hv, hl, hone⟩ := ReadUInt32Array_head scanner ptr 31 probe hprobe
  have hne : ptr ≠ 0 := by
    intro h0
    rw [h0] at hvp
    simp [IsValidPointer, MIN_VALID_POINTER] at hvp
  constructor
  · refine ⟨{ sign := sign, bits_ptr := ptr, bits_length := 1,
              bits_data := [v], is_valid := true }, ?_, rfl, rfl⟩
    simp [DotNetBigIntegerReader.ReadBigInteger, hbase, hsign, hptr, hvp, hprobe,
      hfl, hs0, hone, IsValidBitsLength, MAX_REASONABLE_BITS_LENGTH]
  · refine ⟨{ sign := sign, bits_ptr := ptr, bits_length := 1,
              bits_data := [v] }, ?_, rfl, rfl⟩
    simp [ObscuredBigIntegerReader.ReadBigIntegerContents, hsign, hptr, hvp, hprobe,
      hfl, hs0, hone, hne]

/-- Concrete scanner for the C7 witness: sign reads 1, the magnitude pointer
reads 0x30000, and every 32-bit word read yields 0. -/
def c7Scanner : MemoryScanner where
  readInt32 := fun a => if a = 0x20000 then some 1 else none
  readUInt32 := fun _ => some 0
  readUInt64 := fun a => if a = 0x20004 then some 0x30000 else none
  readBool := fun _ => none

/-- Witness for the C7 theorem at the concrete scanner. -/
theorem length_clamp_witness :
    (∃ r, DotNetBigIntegerReader.ReadBigInteger c7Scanner 0x20000 = some r
       ∧ r.bits_length = 1 ∧ r.bits_data.length = 1)
    ∧ (∃ c, ObscuredBigIntegerReader.ReadBigIntegerContents c7Scanner 0x20000 = some c
       ∧ c.bits_length = 1 ∧ c.bits_data.length = 1) :=
  length_clamp c7Scanner 0x20000 0x30000 1 (List.replicate 32 0)
    (by decide) (by rfl) (by decide) (by rfl) (by decide) (by rfl)
    (by simp)

/-- A successful validated-view read forces a successful raw-view read: the
raw view performs the same reads at the same addresses minus the validation
checks, so with a deterministic scanner it cannot fail where the validated
view succeeded. -/
theorem contents_some_of_ReadBigInteger_some (scanner : MemoryScanner)
    (address : MemoryAddress) (d : DotNetBigIntegerData)
    (h : DotNetBigIntegerReader.ReadBigInteger scanner address = some d) :
    ∃ c, ObscuredBigIntegerReader.ReadBigIntegerContents scanner address = some c := by
  unfold DotNetBigIntegerReader.ReadBigInteger at h
  unfold ObscuredBigIntegerReader.ReadBigIntegerContents
  cases hb : IsValidPointer address with
  | false => simp [hb] at h
  | true =>
    simp only [hb, Bool.not_true, Bool.false_eq_true, if_false] at h
    cases h1 : scanner.readInt32 address with
    | none => simp [h1] at h
    | some sign =>
      simp only [h1] at h ⊢
      cases h2 : scanner.readUInt64 (address + 4) with
      | none => simp [h2] at h
      | some ptr =>
        simp only [h2] at h ⊢
        cases hvp : IsValidPointer ptr with
        | false => simp [hvp] at h
        | true =>
          have hp0 : ¬ (ptr = 0) := by
            intro h0
            rw [h0] at hvp
            simp [IsValidPointer, MIN_VALID_POINTER] at hvp
          simp only [hvp, Bool.not_true, Bool.false_eq_true, if_false, if_neg hp0] at h ⊢
          cases h3 : scanner.ReadUInt32Array ptr 32 with
          | none => simp [h3] at h
          | some probe =>
            simp only [h3] at h ⊢
            cases hvl : IsValidBitsLength
                (if findActualLength probe = 0 ∧ sign ≠ 0 then 1
                 else findActualLength probe) with
            | false => simp [hvl] at h
            | true =>
              simp only [hvl, Bool.not_true, Bool.false_eq_true, if_false] at h
              by_cases hl : (if findActualLength probe = 0 ∧ sign ≠ 0 then 1
                  else findActualLength probe) > 0
              · simp only [if_pos hl] at h ⊢
                cases h4 : scanner.ReadUInt32Array ptr
                    (if findActualLength probe = 0 ∧ sign ≠ 0 then 1
                     else findActualLength probe) with
                | none => simp [h4] at h
                | some bits =>
                  simp only [h4]
                  exact ⟨_, rfl⟩
              · simp only [if_neg hl]
                exact ⟨_, rfl⟩

/-- C5: the dual-view reader attempts both views independently: a failed
validated view only leaves the default (invalid) `bigint_value` inside the
returned record — the record is produced exactly when the raw view succeeds —
and a raw-view failure never suppresses a produced validated view, because
with a deterministic scanner the validated view fails at every address where
the raw view fails. -/
theorem dual_view_independent (scanner : MemoryScanner) (address : MemoryAddress) :
    ((ObscuredBigIntegerReader.ReadSerializableBigInteger scanner address).isSome
      = (ObscuredBigIntegerReader.ReadBigIntegerContents scanner address).isSome)
    ∧ (∀ r, ObscuredBigIntegerReader.ReadSerializableBigInteger scanner address = some r →
        some r.raw_contents = ObscuredBigIntegerReader.ReadBigIntegerContents scanner address
        ∧ (∀ d, DotNetBigIntegerReader.ReadBigIntegerVerbose scanner address = some d →
            r.bigint_value = d)
        ∧ (DotNetBigIntegerReader.ReadBigIntegerVerbose scanner address = none →
            r.bigint_value = {}))
    ∧ (ObscuredBigIntegerReader.ReadBigIntegerContents scanner address = none →
        DotNetBigIntegerReader.ReadBigIntegerVerbose scanner address = none) := by
  refine ⟨?_, ?_, ?_⟩
  · cases hraw : ObscuredBigIntegerReader.ReadBigIntegerContents scanner address <;>
      simp [ObscuredBigIntegerReader.ReadSerializableBigInteger, hraw]
  · intro r hr
    cases hraw : ObscuredBigIntegerReader.ReadBigIntegerContents scanner address with
    | none => simp [ObscuredBigIntegerReader.ReadSerializableBigInteger, hraw] at hr
    | some rc =>
      cases hval : DotNetBigIntegerReader.ReadBigIntegerVerbose scanner address with
      | none =>
        simp only [ObscuredBigIntegerReader.ReadSerializableBigInteger, hraw, hval,
          Option.some.injEq] at hr
        subst hr
        refine ⟨rfl, ?_, fun _ => rfl⟩
        intro d hd
        simp at hd
      | some d =>
        simp only [ObscuredBigIntegerReader.ReadSerializableBigInteger, hraw, hval,
          Option.some.injEq] at hr
        subst hr
        refine ⟨rfl, ?_, ?_⟩
        · intro d' hd'
          exact Option.some.inj hd'
        · intro hnone
          simp at hnone
  · intro hraw
    cases hval : DotNetBigIntegerReader.ReadBigIntegerVerbose scanner address with
    | none => rfl
    | some d =>
      obtain ⟨c, hc⟩ := contents_some_of_ReadBigInteger_some scanner address d hval
      rw [hraw] at hc
      cases hc

/-- Concrete scanner on which every read fails. -/
def noneScanner : MemoryScanner where
  readInt32 := fun _ => none
  readUInt32 := fun _ => none
  readUInt64 := fun _ => none
  readBool := fun _ => none

/-- Witness for the C5 theorem: at the concrete scanner the validated view
fails (null magnitude pointer) yet the raw view is still produced and stored
in the record, and at an all-failing scanner a raw-view failure coincides
with a validated-view failure. -/
theorem dual_view_independent_witness :
    some ({ bigint_value := {},
            raw_contents := { sign := 0, bits_ptr := 0, bits_length := 0, bits_data := [] },
            is_valid := true } : SerializableBigInteger).raw_contents
      = ObscuredBigIntegerReader.ReadBigIntegerContents c4Scanner 0x20000
    ∧ DotNetBigIntegerReader.ReadBigIntegerVerbose noneScanner 0x20000 = none := by
  constructor
  · exact ((dual_view_independent c4Scanner 0x20000).2.1 _ (by rfl)).1
  · exact (dual_view_independent noneScanner 0x20000).2.2 (by rfl)

/-- C6: the obfuscated-record read is all-or-nothing: every returned record
has all five fields populated from the corresponding successful reads at
their fixed offsets, and the failure of any field read yields failure for
the whole record — no partially-populated record is ever returned. -/
theorem record_read_all_or_nothing (scanner : MemoryScanner) (sz : Nat)
    (base : MemoryAddress) :
    (∀ r, ObscuredBigIntegerReader.ReadObscuredBigInteger scanner sz base = some r →
      some r.hidden_value = ObscuredBigIntegerReader.ReadSerializableBigInteger scanner base
      ∧ some r.fake_value
          = ObscuredBigIntegerReader.ReadSerializableBigInteger scanner (base + sz)
      ∧ some r.current_crypto_key = scanner.readUInt32 (base + sz + sz)
      ∧ some r.fake_value_active = scanner.readBool (base + sz + sz + 4)
      ∧ some r.inited = scanner.readBool (base + sz + sz + 4 + 1)
      ∧ r.is_valid = true)
    ∧ ((ObscuredBigIntegerReader.ReadSerializableBigInteger scanner base = none
        ∨ ObscuredBigIntegerReader.ReadSerializableBigInteger scanner (base + sz) = none
        ∨ scanner.readUInt32 (base + sz + sz) = none
        ∨ scanner.readBool (base + sz + sz + 4) = none
        ∨ scanner.readBool (base + sz + sz + 4 + 1) = none) →
      ObscuredBigIntegerReader.ReadObscuredBigInteger scanner sz base = none) := by
  constructor
  · intro r hr
    unfold ObscuredBigIntegerReader.ReadObscuredBigInteger at hr
    cases hb : IsValidPointer base with
    | false => simp [hb] at hr
    | true =>
      simp only [hb, Bool.not_true, Bool.false_eq_true, if_false] at hr
      cases h1 : ObscuredBigIntegerReader.ReadSerializableBigInteger scanner base with
      | none => simp [h1] at hr
      | some hv =>
        simp only [h1] at hr
        cases h2 : ObscuredBigIntegerReader.ReadSerializableBigInteger scanner
            (base + sz) with
        | none => simp [h2] at hr
        | some fv =>
          simp only [h2] at hr
          cases h3 : scanner.readUInt32 (base + sz + sz) with
          | none => simp [h3] at hr
          | some key =>
            simp only [h3] at hr
            cases h4 : scanner.readBool (base + sz + sz + 4) with
            | none => simp [h4] at hr
            | some fa =>
              simp only [h4] at hr
              cases h5 : scanner.readBool (base + sz + sz + 4 + 1) with
              | none => simp [h5] at hr
              | some ini =>
                simp only [h5, Option.some.injEq] at hr
                subst hr
                exact ⟨rfl, rfl, rfl, rfl, rfl, rfl⟩
  · intro hfail
    unfold ObscuredBigIntegerReader.ReadObscuredBigInteger
    cases hb : IsValidPointer base with
    | false => simp [hb]
    | true =>
      simp only [hb, Bool.not_true, Bool.false_eq_true, if_false]
      cases h1 : ObscuredBigIntegerReader.ReadSerializableBigInteger scanner base with
      | none => rfl
      | some hv =>
        cases h2 : ObscuredBigIntegerReader.ReadSerializableBigInteger scanner
            (base + sz) with
        | none => rfl
        | some fv =>
          cases h3 : scanner.readUInt32 (base + sz + sz) with
          | none => rfl
          | some key =>
            cases h4 : scanner.readBool (base + sz + sz + 4) with
            | none => rfl
            | some fa =>
              cases h5 : scanner.readBool (base + sz + sz + 4 + 1) with
              | none => rfl
              | some ini =>
                rcases hfail with f | f | f | f | f <;> simp_all

/-- Concrete scanner on which every field read succeeds. -/
def c6AllScanner : MemoryScanner where
  readInt32 := fun _ => some 0
  readUInt32 := fun _ => some 0
  readUInt64 := fun _ => some 0
  readBool := fun _ => some false

/-- Concrete scanner on which the boolean field reads fail. -/
def c6FailScanner : MemoryScanner where
  readInt32 := fun _ => some 0
  readUInt32 := fun _ => some 0
  readUInt64 := fun _ => some 0
  readBool := fun _ => none

/-- Witness for the C6 theorem: a fully readable record comes back with its
fields equal to the reads, and a record whose decoy-active flag read fails
comes back as failure. -/
theorem record_read_all_or_nothing_witness :
    some ({ hidden_value :=
              { bigint_value := {},
                raw_contents := { sign := 0, bits_ptr := 0, bits_length := 0,
                                  bits_data := [] },
                is_valid := true },
            fake_value :=
              { bigint_value := {},
                raw_contents := { sign := 0, bits_ptr := 0, bits_length := 0,
                                  bits_data := [] },
                is_valid := true },
            current_crypto_key := 0, fake_value_active := false, inited := false,
            is_valid := true } : ObscuredBigIntegerData).hidden_value
      = ObscuredBigIntegerReader.ReadSerializableBigInteger c6AllScanner 0x20000
    ∧ ObscuredBigIntegerReader.ReadObscuredBigInteger c6FailScanner 112 0x20000 = none := by
  constructor
  · exact ((record_read_all_or_nothing c6AllScanner 112 0x20000).1 _ (by rfl)).1
  · exact (record_read_all_or_nothing c6FailScanner 112 0x20000).2
      (Or.inr (Or.inr (Or.inr (Or.inl rfl))))

/-- Fixed scan stride `SCAN_ALIGNMENT` (memory_scanner.hpp line 67). -/
def SCAN_ALIGNMENT : Nat := 4

/-- Modulus of the 64-bit `size_t` arithmetic used by the scan loop bound. -/
def SIZET_MOD : Nat := 2 ^ 64

/-- C++ `size_t` subtraction: wraps modulo 2^64 on underflow, which is what
`region_data.size() - pattern.size()` computes at memory_scanner.cpp line
177. -/
def sizetSub (a b : Nat) : Nat :=
  (a + (SIZET_MOD - b % SIZET_MOD)) % SIZET_MOD

/-- Inner loop of `MemoryScanner::ScanRegionForPattern` (memory_scanner.cpp
lines 178-189) at candidate offset `i`: iterate `j` over the pattern
positions; when a non-empty mask is supplied and its byte `j` is 0 the
position is skipped; otherwise the buffer byte at `i + j` must equal pattern
byte `j`, and the first mismatch stops with `some false`.  Exhausting the
pattern yields `some true`.  A lookup outside the buffer or the mask models
the out-of-bounds `std::vector` access the C++ would perform there and yields
`none`.  `rem` counts the remaining iterations (the C++ loop condition
`j < pattern.size()`), so the pair `(j, rem)` walks exactly the C++
iteration space. -/
def matchFrom (region_data pattern mask : List Nat) (i : Nat) :
    Nat → Nat → Option Bool
  | _, 0 => some true
  | j, rem + 1 =>
    if mask.length ≠ 0 then
      match mask.get? j with
      | none => none
      | some m =>
        if m = 0 then matchFrom region_data pattern mask i (j + 1) rem
        else
          match region_data.get? (i + j) with
          | none => none
          | some b =>
            if b ≠ pattern.getD j 0 then some false
            else matchFrom region_data pattern mask i (j + 1) rem
    else
      match region_data.get? (i + j) with
      | none => none
      | some b =>
        if b ≠ pattern.getD j 0 then some false
        else matchFrom region_data pattern mask i (j + 1) rem

/-- Result of the inner matching loop for candidate offset `i`, started at
`j = 0` with `pattern.length` iterations, as the C++ executes it. -/
def matchAt (region_data pattern mask : List Nat) (i : Nat) : Option Bool :=
  matchFrom region_data pattern mask i 0 pattern.length

/-- Outer loop of `ScanRegionForPattern` (memory_scanner.cpp lines 177-194):
candidate offsets advance from 0 by `SCAN_ALIGNMENT` while `i ≤ bound`,
where `bound` is the `size_t` value of
`region_data.size() - pattern.size()`; matching offsets are appended in
order.  `none` propagates an out-of-bounds access from the inner loop. -/
def ScanRegionLoop (region_data pattern mask : List Nat) (bound : Nat)
    (i : Nat) (acc : List Nat) : Option (List Nat) :=
  if _h : i ≤ bound then
    match matchAt region_data pattern mask i with
    | none => none
    | some true =>
      ScanRegionLoop region_data pattern mask bound (i + SCAN_ALIGNMENT) (acc ++ [i])
    | some false =>
      ScanRegionLoop region_data pattern mask bound (i + SCAN_ALIGNMENT) acc
  else some acc
termination_by bound + 1 - i
decreasing_by all_goals (simp [SCAN_ALIGNMENT]; omega)

/-- Embedding of `MemoryScanner::ScanRegionForPattern` (memory_scanner.cpp
lines 162-197).  `region_data` stands for the byte vector `ReadBytes`
returned for the region (empty on a failed backing read, contributing zero
matches, as in the source).  An empty pattern yields no matches.  Otherwise
the loop upper bound is computed, as in the C++, by `size_t` subtraction of
the sizes — which wraps around when the pattern is longer than the buffer —
and each matching offset is reported as `region_base + offset`.  A `none`
result records that the C++ loop performed an out-of-bounds buffer access
(undefined behaviour). -/
def ScanRegionForPattern (region_base : MemoryAddress)
    (region_data pattern mask : List Nat) : Option (List MemoryAddress) :=
  if pattern.isEmpty then some []
  else if region_data.isEmpty then some []
  else
    match ScanRegionLoop region_data pattern mask
        (sizetSub region_data.length pattern.length) 0 [] with
    | none => none
    | some offsets => some (offsets.map (fun i => region_base + i))

/-- C10 (code bug): for the non-empty 1-byte region buffer [0x00] and the
2-byte pattern [0x01, 0x01] the loop bound underflows in `size_t` to
2^64 - 1, so the scan does not return an empty result: at candidate offset 4
it reads the buffer out of bounds (modelled as `none`). -/
theorem scan_oob_underflow :
    ScanRegionForPattern 0 [0] [1, 1] [] = none
    ∧ sizetSub ([0] : List Nat).length ([1, 1] : List Nat).length = 2 ^ 64 - 1 := by
  have hb : sizetSub ([0] : List Nat).length ([1, 1] : List Nat).length
      = 2 ^ 64 - 1 := by
    norm_num [sizetSub, SIZET_MOD]
  have hloop : ScanRegionLoop [0] [1, 1] [] (2 ^ 64 - 1) 0 [] = none := by
    rw [ScanRegionLoop]
    norm_num [matchAt, matchFrom, SCAN_ALIGNMENT]
    rw [ScanRegionLoop]
    norm_num [matchAt, matchFrom, SCAN_ALIGNMENT]
  refine ⟨?_, hb⟩
  rw [ScanRegionForPattern, hb, hloop]
  rfl

/-- When a candidate window lies inside the buffer and the mask is absent or
at least pattern-sized, the inner loop never goes out of bounds. -/
theorem matchFrom_isSome (data pattern mask : List Nat) (i : Nat)
    (hwin : i + pattern.length ≤ data.length)
    (hmask : mask = [] ∨ pattern.length ≤ mask.length) :
    ∀ rem j, j + rem = pattern.length →
      (matchFrom data pattern mask i j rem).isSome := by
  intro rem
  induction rem with
  | zero => intro j hj; simp [matchFrom]
  | succ r ih =>
    intro j hj
    have hjlt : j < pattern.length := by omega
    have hdlt : i + j < data.length := by omega
    rw [matchFrom]
    rcases hmask with hm | hm
    · subst hm
      simp only [List.length_nil, ne_eq, not_true_eq_false, if_false]
      simp only [List.get?_eq_get hdlt]
      split
      · simp
      · exact ih (j + 1) (by omega)
    · have hmne : mask.length ≠ 0 := by omega
      simp only [ne_eq, hmne, not_false_eq_true, if_true]
      have hjm : j < mask.length := by omega
      simp only [List.get?_eq_get hjm]
      split
      · exact ih (j + 1) (by omega)
      · simp only [List.get?_eq_get hdlt]
        split
        · simp
        · exact ih (j + 1) (by omega)

/-- When every position the mask marks as significant agrees between buffer
window and pattern, the inner loop reports a match. -/
theorem matchFrom_true_of_compat (data pattern mask : List Nat) (i : Nat)
    (hmlen : mask.length = pattern.length)
    (hwin : i + pattern.length ≤ data.length)
    (hcompat : ∀ j, j < pattern.length → mask.getD j 1 ≠ 0 →
        data.getD (i + j) 0 = pattern.getD j 0) :
    ∀ rem j, j + rem = pattern.length →
      matchFrom data pattern mask i j rem = some true := by
  intro rem
  induction rem with
  | zero => intro j hj; simp [matchFrom]
  | succ r ih =>
    intro j hj
    have hjlt : j < pattern.length := by omega
    have hdlt : i + j < data.length := by omega
    have hjm : j < mask.length := by omega
    have hmne : mask.length ≠ 0 := by omega
    rw [matchFrom]
    simp only [ne_eq, hmne, not_false_eq_true, if_true]
    simp only [List.get?_eq_get hjm]
    by_cases hz : mask.get ⟨j, hjm⟩ = 0
    · simp only [hz, if_true]
      exact ih (j + 1) (by omega)
    · simp only [hz, if_false]
      have hgd : mask.getD j 1 = mask.get ⟨j, hjm⟩ := by
        simp [List.getD, List.getElem?_eq_getElem hjm]
      have heq : data.getD (i + j) 0 = pattern.getD j 0 :=
        hcompat j hjlt (by rw [hgd]; exact hz)
      simp only [List.get?_eq_get hdlt]
      have hgd2 : data.getD (i + j) 0 = data.get ⟨i + j, hdlt⟩ := by
        simp [List.getD, List.getElem?_eq_getElem hdlt]
      rw [hgd2] at heq
      simp only [heq, ne_eq, not_true_eq_false, if_false]
      exact ih (j + 1) (by omega)

/-- Closed form of the outer scan loop when the pattern fits inside the
buffer: starting from offset `i` the loop always succeeds, returning the
accumulator followed by every candidate offset `i, i + 4, ...` up to the
bound at which the inner matcher reports a match. -/
theorem ScanRegionLoop_closed (data pattern mask : List Nat) (bound : Nat)
    (hbound : bound = data.length - pattern.length)
    (hlen : pattern.length ≤ data.length)
    (hmask : mask = [] ∨ pattern.length ≤ mask.length) :
    ∀ i acc, ScanRegionLoop data pattern mask bound i acc
      = some (acc ++ (List.range' i
          (if i ≤ bound then (bound - i) / SCAN_ALIGNMENT + 1 else 0)
          SCAN_ALIGNMENT).filter
            (fun o => matchAt data pattern mask o == some true)) := by
  intro i acc
  induction i, acc using ScanRegionLoop.induct data pattern mask bound with
  | case1 i acc h hm =>
    exfalso
    have hw : i + pattern.length ≤ data.length := by omega
    have hs := matchFrom_isSome data pattern mask i hw hmask pattern.length 0 (by omega)
    rw [matchAt] at hm
    rw [hm] at hs
    simp at hs
  | case2 i acc h hm ih =>
    rw [ScanRegionLoop]
    simp only [dif_pos h, hm]
    rw [ih]
    have harith : (if i + SCAN_ALIGNMENT ≤ bound then
        (bound - (i + SCAN_ALIGNMENT)) / SCAN_ALIGNMENT + 1 else 0)
        = (bound - i) / SCAN_ALIGNMENT := by
      simp only [SCAN_ALIGNMENT]
      by_cases h4 : i + 4 ≤ bound
      · rw [if_pos h4]
        conv_rhs => rw [Nat.div_eq]
        rw [if_pos ⟨by norm_num, by omega⟩]
        have hsub : bound - i - 4 = bound - (i + 4) := by omega
        rw [hsub]
      · rw [if_neg h4, Nat.div_eq_of_lt (by omega)]
    rw [harith, if_pos h, List.range'_succ,
      List.filter_cons_of_pos (by simp [hm])]
    simp
  | case3 i acc h hm ih =>
    rw [ScanRegionLoop]
    simp only [dif_pos h, hm]
    rw [ih]
    have harith : (if i + SCAN_ALIGNMENT ≤ bound then
        (bound - (i + SCAN_ALIGNMENT)) / SCAN_ALIGNMENT + 1 else 0)
        = (bound - i) / SCAN_ALIGNMENT := by
      simp only [SCAN_ALIGNMENT]
      by_cases h4 : i + 4 ≤ bound
      · rw [if_pos h4]
        conv_rhs => rw [Nat.div_eq]
        rw [if_pos ⟨by norm_num, by omega⟩]
        have hsub : bound - i - 4 = bound - (i + 4) := by omega
        rw [hsub]
      · rw [if_neg h4, Nat.div_eq_of_lt (by omega)]
    rw [harith, if_pos h, List.range'_succ,
      List.filter_cons_of_neg (by simp [hm])]
  | case4 i acc h =>
    rw [ScanRegionLoop]
    simp only [dif_neg h]
    rw [if_neg h]
    simp

/-- Every successful run of the outer loop extends a 4-aligned, strictly
ascending accumulator into a 4-aligned, strictly ascending result. -/
theorem ScanRegionLoop_sorted_aligned (data pattern mask : List Nat) (bound : Nat) :
    ∀ i acc res, ScanRegionLoop data pattern mask bound i acc = some res →
      i % SCAN_ALIGNMENT = 0 → (∀ a ∈ acc, a % SCAN_ALIGNMENT = 0) →
      (∀ a ∈ acc, a < i) → acc.Sorted (· < ·) →
      res.Sorted (· < ·) ∧ ∀ a ∈ res, a % SCAN_ALIGNMENT = 0 := by
  intro i acc
  induction i, acc using ScanRegionLoop.induct data pattern mask bound with
  | case1 i acc h hm =>
    intro res hres _ _ _ _
    rw [ScanRegionLoop] at hres
    simp [dif_pos h, hm] at hres
  | case2 i acc h hm ih =>
    intro res hres hal hacc hlt hsort
    rw [ScanRegionLoop] at hres
    simp only [dif_pos h, hm] at hres
    refine ih res hres ?_ ?_ ?_ ?_
    · simp only [SCAN_ALIGNMENT] at hal ⊢
      omega
    · intro a ha
      rcases List.mem_append.1 ha with ha | ha
      · exact hacc a ha
      · simp only [List.mem_singleton] at ha
        subst ha
        exact hal
    · intro a ha
      rcases List.mem_append.1 ha with ha | ha
      · have := hlt a ha
        simp only [SCAN_ALIGNMENT]
        omega
      · simp only [List.mem_singleton] at ha
        subst ha
        simp [SCAN_ALIGNMENT]
    · rw [List.Sorted, List.pairwise_append]
      exact ⟨hsort, by simp, by
        intro a ha b hb
        simp only [List.mem_singleton] at hb
        subst hb
        exact hlt a ha⟩
  | case3 i acc h hm ih =>
    intro res hres hal hacc hlt hsort
    rw [ScanRegionLoop] at hres
    simp only [dif_pos h, hm] at hres
    refine ih res hres ?_ hacc ?_ hsort
    · simp only [SCAN_ALIGNMENT] at hal ⊢
      omega
    · intro a ha
      have := hlt a ha
      simp only [SCAN_ALIGNMENT]
      omega
  | case4 i acc h =>
    intro res hres _ hacc _ hsort
    rw [ScanRegionLoop] at hres
    simp only [dif_neg h, Option.some.injEq] at hres
    subst hres
    exact ⟨hsort, hacc⟩

/-- Closed form of `ScanRegionForPattern` for a non-empty pattern that fits
inside a realistically sized buffer: the scan succeeds and reports
`region_base + o` for exactly the 4-stride candidate offsets `o` at which the
masked comparison matches. -/
theorem ScanRegionForPattern_closed (base : MemoryAddress)
    (data pattern mask : List Nat)
    (hpne : pattern ≠ []) (hlen : pattern.length ≤ data.length)
    (hsmall : data.length < SIZET_MOD)
    (hmask : mask = [] ∨ pattern.length ≤ mask.length) :
    ScanRegionForPattern base data pattern mask
      = some (((List.range' 0
          ((data.length - pattern.length) / SCAN_ALIGNMENT + 1)
          SCAN_ALIGNMENT).filter
            (fun o => matchAt data pattern mask o == some true)).map
              (fun i => base + i)) := by
  have hdne : data ≠ [] := by
    intro hd
    subst hd
    have h0 : pattern.length = 0 := by simpa using hlen
    exact hpne (List.length_eq_zero.mp h0)
  have hsub : sizetSub data.length pattern.length
      = data.length - pattern.length := by
    rw [sizetSub]
    have hplt : pattern.length < SIZET_MOD := lt_of_le_of_lt hlen hsmall
    rw [Nat.mod_eq_of_lt hplt]
    have h1 : data.length + (SIZET_MOD - pattern.length)
        = (data.length - pattern.length) + 1 * SIZET_MOD := by omega
    rw [h1, Nat.add_mul_mod_self_right]
    exact Nat.mod_eq_of_lt (by omega)
  have hp : ¬ (pattern.isEmpty = true) := by simp [List.isEmpty_iff, hpne]
  have hd : ¬ (data.isEmpty = true) := by simp [List.isEmpty_iff, hdne]
  rw [ScanRegionForPattern, if_neg hp, if_neg hd, hsub,
    ScanRegionLoop_closed data pattern mask (data.length - pattern.length)
      rfl hlen hmask 0 []]
  rw [if_pos (Nat.zero_le _), Nat.sub_zero]
  simp

/-- C8: mask semantics of the byte pattern matcher: for every non-empty
pattern with an equal-length mask, every buffer, and every 4-aligned
candidate offset whose window lies inside the buffer, a buffer window that
agrees with the pattern at every position the mask marks significant
(non-zero mask byte) is reported as a match at that offset — positions where
the mask marks don't-care (mask byte 0) match regardless of the buffer byte
there. -/
theorem mask_dont_care_matches (base : MemoryAddress)
    (data pattern mask : List Nat) (i : Nat)
    (hpne : pattern ≠ []) (hmlen : mask.length = pattern.length)
    (hsmall : data.length < SIZET_MOD)
    (halign : i % SCAN_ALIGNMENT = 0)
    (hwin : i + pattern.length ≤ data.length)
    (hcompat : ∀ j, j < pattern.length → mask.getD j 1 ≠ 0 →
        data.getD (i + j) 0 = pattern.getD j 0) :
    ∃ res, ScanRegionForPattern base data pattern mask = some res
      ∧ base + i ∈ res := by
  have hlen : pattern.length ≤ data.length := by omega
  have hmaskok : mask = [] ∨ pattern.length ≤ mask.length :=
    Or.inr (le_of_eq hmlen.symm)
  refine ⟨_, ScanRegionForPattern_closed base data pattern mask hpne hlen
    hsmall hmaskok, ?_⟩
  rw [List.mem_map]
  refine ⟨i, ?_, rfl⟩
  rw [List.mem_filter]
  constructor
  · rw [List.mem_range']
    have hple : 1 ≤ pattern.length := by
      cases pattern with
      | nil => exact absurd rfl hpne
      | cons a t => simp
    have hib : i ≤ data.length - pattern.length := by omega
    refine ⟨i / SCAN_ALIGNMENT, ?_, ?_⟩
    · simp only [SCAN_ALIGNMENT] at *
      omega
    · simp only [SCAN_ALIGNMENT] at *
      omega
  · have hm := matchFrom_true_of_compat data pattern mask i hmlen hwin hcompat
      pattern.length 0 (by omega)
    simp [matchAt, hm]

/-- Witness for the C8 theorem: buffer DE 77 00 00 differs from pattern DE AD
only at position 1, which mask 01 00 marks as don't-care; offset 0 is
reported as a match. -/
theorem mask_dont_care_matches_witness :
    ∃ res, ScanRegionForPattern 0x1000 [0xDE, 0x77, 0, 0] [0xDE, 0xAD] [1, 0]
        = some res
      ∧ 0x1000 + 0 ∈ res :=
  mask_dont_care_matches 0x1000 [0xDE, 0x77, 0, 0] [0xDE, 0xAD] [1, 0] 0
    (by decide) (by decide) (by decide) (by decide) (by decide) (by decide)

/-- Concrete region bytes for Scenario F: the pattern DE AD BE EF appears at
offset 0x40 = 64 and nowhere else in a 72-byte buffer. -/
def scenarioFData : List Nat :=
  List.replicate 64 0 ++ [0xDE, 0xAD, 0xBE, 0xEF] ++ List.replicate 4 0

/-- C9: the scan proceeds at the fixed 4-byte stride — every reported address
is the region base plus a 4-aligned offset (misaligned occurrences are never
reported), results come back in strictly ascending order, and on a region
containing DE AD BE EF exactly once at offset 0x40 the scan returns exactly
the single address base + 0x40. -/
theorem scan_stride_scenarioF :
    (∀ base data pattern mask res,
      ScanRegionForPattern base data pattern mask = some res →
        res.Sorted (· < ·)
        ∧ ∀ a ∈ res, ∃ off, a = base + off ∧ off % SCAN_ALIGNMENT = 0)
    ∧ ∀ base, ScanRegionForPattern base scenarioFData [0xDE, 0xAD, 0xBE, 0xEF] []
        = some [base + 0x40] := by
  constructor
  · intro base data pattern mask res h
    rw [ScanRegionForPattern] at h
    by_cases hp : pattern.isEmpty = true
    · rw [if_pos hp] at h
      simp only [Option.some.injEq] at h
      subst h
      exact ⟨by simp, by simp⟩
    rw [if_neg hp] at h
    by_cases hd : data.isEmpty = true
    · rw [if_pos hd] at h
      simp only [Option.some.injEq] at h
      subst h
      exact ⟨by simp, by simp⟩
    rw [if_neg hd] at h
    cases hl : ScanRegionLoop data pattern mask
        (sizetSub data.length pattern.length) 0 [] with
    | none => rw [hl] at h; simp at h
    | some offsets =>
      rw [hl] at h
      simp only [Option.some.injEq] at h
      subst h
      obtain ⟨hsort, hali⟩ := ScanRegionLoop_sorted_aligned data pattern mask
        (sizetSub data.length pattern.length) 0 [] offsets hl
        (by simp) (by simp) (by simp) (by simp)
      constructor
      · rw [List.Sorted, List.pairwise_map]
        exact hsort.imp (fun hab => Nat.add_lt_add_left hab base)
      · intro a ha
        rw [List.mem_map] at ha
        obtain ⟨off, hoff, rfl⟩ := ha
        exact ⟨off, rfl, hali off hoff⟩
  · intro base
    rw [ScanRegionForPattern_closed base scenarioFData [0xDE, 0xAD, 0xBE, 0xEF] []
      (by decide) (by decide) (by decide) (Or.inl rfl)]
    have hfilter : (List.range' 0
        ((scenarioFData.length - ([0xDE, 0xAD, 0xBE, 0xEF] : List Nat).length)
          / SCAN_ALIGNMENT + 1) SCAN_ALIGNMENT).filter
        (fun o => matchAt scenarioFData [0xDE, 0xAD, 0xBE, 0xEF] [] o == some true)
        = [64] := by decide
    rw [hfilter]
    norm_num

/-- Witness for the C9 theorem: its general part applied to the Scenario F
scan result. -/
theorem scan_stride_scenarioF_witness :
    ([0x100000 + 0x40] : List Nat).Sorted (· < ·)
    ∧ ∀ a ∈ ([0x100000 + 0x40] : List Nat),
        ∃ off, a = 0x100000 + off ∧ off % SCAN_ALIGNMENT = 0 :=
  scan_stride_scenarioF.1 0x100000 scenarioFData [0xDE, 0xAD, 0xBE, 0xEF] []
    [0x100000 + 0x40] (scan_stride_scenarioF.2 0x100000)

end MemoryForensics
